import Mathlib

/-!
Verification of the StockSystem inventory application (src/app.py).

The file shallowly embeds the data model (Category/Product/Sale rows), the
mutating routes (add_product, delete_product, sell) and the reporting code
(generate_json_report, generate_monthly_html_report, the reports listing and
view_report) as executable Lean definitions, and proves the spec's claims
about them.

Modelling conventions:
* Python `float` money fields (cost, price, profit, revenue) are modelled as
  exact rationals `ℚ`; `int` fields as `Int` (Python integers are unbounded).
* `datetime` values are seven-tuples compared lexicographically, exactly as
  Python compares datetimes.
* The SQLAlchemy session is a `DB` record of row lists; `query.first()` /
  `get_or_404` is `List.find?`, in-place mutation of the found row is
  `updateFirst`, `db.session.delete` of the found row is `removeFirst`,
  `db.session.add` appends with the autoincrement id.
* The records folder on disk is an association list of (filename, content).
-/

/-- A timestamp mirroring Python `datetime`: year, month, day, hour, minute,
second, microsecond. -/
structure Timestamp where
  year : Nat
  month : Nat
  day : Nat
  hour : Nat
  minute : Nat
  second : Nat
  micro : Nat
deriving DecidableEq, Repr

/-- Python's `datetime` comparison: componentwise lexicographic. -/
def Timestamp.le (a b : Timestamp) : Bool :=
  if a.year ≠ b.year then decide (a.year < b.year)
  else if a.month ≠ b.month then decide (a.month < b.month)
  else if a.day ≠ b.day then decide (a.day < b.day)
  else if a.hour ≠ b.hour then decide (a.hour < b.hour)
  else if a.minute ≠ b.minute then decide (a.minute < b.minute)
  else if a.second ≠ b.second then decide (a.second < b.second)
  else decide (a.micro ≤ b.micro)

/-- A calendar date (the argument of `generate_json_report`). -/
structure Date where
  year : Nat
  month : Nat
  day : Nat
deriving DecidableEq, Repr

/-- `datetime.combine(target_date, datetime.min.time())`. -/
def dayStart (d : Date) : Timestamp :=
  ⟨d.year, d.month, d.day, 0, 0, 0, 0⟩

/-- `datetime.combine(target_date, datetime.max.time())`, i.e. 23:59:59.999999. -/
def dayEnd (d : Date) : Timestamp :=
  ⟨d.year, d.month, d.day, 23, 59, 59, 999999⟩

/-- Gregorian leap year, as implemented by Python's `datetime` calendar. -/
def isLeap (y : Nat) : Bool :=
  y % 4 == 0 && (y % 100 != 0 || y % 400 == 0)

/-- Number of days in a month of Python's proleptic Gregorian calendar. -/
def daysInMonth (y m : Nat) : Nat :=
  if m = 2 then (if isLeap y then 29 else 28)
  else if m = 4 ∨ m = 6 ∨ m = 9 ∨ m = 11 then 30
  else 31

/-- `datetime(year, month, 1)` — start of the monthly report window. -/
def monthStart (y m : Nat) : Timestamp :=
  ⟨y, m, 1, 0, 0, 0, 0⟩

/-- `datetime(year, month+1, 1) - timedelta(seconds=1)` (rolling the year over
when `month = 12`): the last day of the month at 23:59:59.000000. -/
def monthEnd (y m : Nat) : Timestamp :=
  ⟨y, m, daysInMonth y m, 23, 59, 59, 0⟩

/-- A `Product` row. -/
structure Product where
  id : Nat
  name : String
  image : String
  cost : ℚ
  price : ℚ
  stock : Int
  category_id : Nat
  is_deleted : Bool
deriving DecidableEq, Repr

/-- A `Sale` row. `revenue` is `Option ℚ` because the column is nullable:
rows written before revenue tracking existed carry NULL. -/
structure Sale where
  id : Nat
  product_id : Nat
  quantity : Int
  profit : ℚ
  revenue : Option ℚ
  timestamp : Timestamp
deriving DecidableEq, Repr

/-- The relational store: the `Product` and `Sale` tables plus the
autoincrement counters for their primary keys. -/
structure DB where
  products : List Product
  sales : List Sale
  next_product_id : Nat
  next_sale_id : Nat
deriving DecidableEq, Repr

/-- Mutate the first element satisfying `pred` in place (the ORM pattern
`row = query.first(); row.field = ...; commit()`). -/
def updateFirst (pred : α → Bool) (f : α → α) : List α → List α
  | [] => []
  | x :: xs => if pred x then f x :: xs else x :: updateFirst pred f xs

/-- Remove the first element satisfying `pred` (`db.session.delete(row)`). -/
def removeFirst (pred : α → Bool) : List α → List α
  | [] => []
  | x :: xs => if pred x then xs else x :: removeFirst pred xs

/-- Outcome of the `sell` route, as observed by the user. -/
inductive SellResult
  | notFound
  | outOfStock
  | sold (qty : Int) (name : String)
deriving DecidableEq, Repr

/-- The `sell` route: look the product up by id, reject when
`prod.stock <= 0 or qty > prod.stock`, otherwise decrement the stock and
append one `Sale` row snapshotting profit and revenue from the product's
current price and cost. -/
def sell (db : DB) (prod_id : Nat) (qty : Int) (now : Timestamp) :
    DB × SellResult :=
  match db.products.find? (fun p => p.id == prod_id) with
  | none => (db, .notFound)
  | some prod =>
    if prod.stock ≤ 0 ∨ qty > prod.stock then (db, .outOfStock)
    else
      let sale : Sale :=
        { id := db.next_sale_id
          product_id := prod.id
          quantity := qty
          profit := (prod.price - prod.cost) * (qty : ℚ)
          revenue := some (prod.price * (qty : ℚ))
          timestamp := now }
      ({ db with
          products := updateFirst (fun p => p.id == prod_id)
            (fun p => { p with stock := p.stock - qty }) db.products
          sales := db.sales ++ [sale]
          next_sale_id := db.next_sale_id + 1 },
       .sold qty prod.name)

/-- Outcome of the `delete_product` route. -/
inductive DeleteResult
  | notFound
  | hardDeleted (name : String)
  | softDeleted (name : String)
deriving DecidableEq, Repr

/-- The `delete_product` route: count the product's Sale rows; with zero the
row is removed outright, otherwise it is flagged `is_deleted` and its stock
zeroed. The Sale table is never touched. -/
def delete_product (db : DB) (prod_id : Nat) : DB × DeleteResult :=
  match db.products.find? (fun p => p.id == prod_id) with
  | none => (db, .notFound)
  | some prod =>
    let sales_count := (db.sales.filter (fun s => s.product_id == prod.id)).length
    if sales_count = 0 then
      ({ db with products := removeFirst (fun p => p.id == prod_id) db.products },
       .hardDeleted prod.name)
    else
      ({ db with
          products := updateFirst (fun p => p.id == prod_id)
            (fun p => { p with is_deleted := true, stock := 0 }) db.products },
       .softDeleted prod.name)

/-- Outcome of the `add_product` route. -/
inductive AddResult
  | restocked (name : String) (revived : Bool)
  | created (name : String)
  | missingCostPrice
deriving DecidableEq, Repr

/-- The `add_product` route. `stock_input`, `cost_input`, `price_input`,
`category_id` and `file` model the optional form fields (`None` for an
absent/falsy field; `secure_filename` is not modelled, upload names are taken
as given). An existing product (found by name) is restocked additively and
its `is_deleted` flag cleared when set; a brand-new product requires cost and
price and is appended with the next id. -/
def add_product (db : DB) (name : String) (stock_input : Option Int)
    (cost_input : Option ℚ) (price_input : Option ℚ)
    (category_id : Option Nat) (file : Option String) : DB × AddResult :=
  let new_stock := stock_input.getD 0
  match db.products.find? (fun p => p.name == name) with
  | some existing_prod =>
    let upd := fun (p : Product) =>
      let p := if p.is_deleted then { p with is_deleted := false } else p
      let p := { p with stock := p.stock + new_stock }
      let p := match cost_input with
        | some c => { p with cost := c }
        | none => p
      let p := match price_input with
        | some pr => { p with price := pr }
        | none => p
      let p := match category_id with
        | some cid => { p with category_id := cid }
        | none => p
      match file with
      | some f => if f ≠ "" then { p with image := f } else p
      | none => p
    ({ db with products := updateFirst (fun p => p.name == name) upd db.products },
     .restocked name existing_prod.is_deleted)
  | none =>
    match cost_input, price_input with
    | some c, some pr =>
      let filename := match file with
        | some f => if f ≠ "" then f else "default.jpg"
        | none => "default.jpg"
      let cat_id := category_id.getD 1
      ({ db with
          products := db.products ++
            [{ id := db.next_product_id, name := name, image := filename,
               cost := c, price := pr, stock := new_stock,
               category_id := cat_id, is_deleted := false }]
          next_product_id := db.next_product_id + 1 },
       .created name)
    | _, _ => (db, .missingCostPrice)

/-- The UTF-8 character for a decimal digit. -/
def digitChar (n : Nat) : Char := Char.ofNat (48 + n)

/-- `w`-wide zero-padded decimal digits of `n`, most significant first.
For `n < 10 ^ w` this is exactly the fixed-width zero-padded rendering that
`strftime` / an `{m:02d}`-style format produce for in-range date components. -/
def padDigits : Nat → Nat → List Char
  | 0, _ => []
  | w + 1, n => digitChar (n / 10 ^ w) :: padDigits w (n % 10 ^ w)

/-- `w`-wide zero-padded decimal string. -/
def padNum (w n : Nat) : String := ⟨padDigits w n⟩

/-- `target_date.strftime("%Y-%m-%d")`. -/
def dateString (d : Date) : String :=
  padNum 4 d.year ++ "-" ++ padNum 2 d.month ++ "-" ++ padNum 2 d.day

/-- `timestamp.strftime("%H:%M:%S")`. -/
def timeString (t : Timestamp) : String :=
  padNum 2 t.hour ++ ":" ++ padNum 2 t.minute ++ ":" ++ padNum 2 t.second

/-- The daily artifact name `f"daily_{target_date.strftime('%Y%m%d')}.json"`. -/
def dailyFilename (d : Date) : String :=
  "daily_" ++ padNum 4 d.year ++ padNum 2 d.month ++ padNum 2 d.day ++ ".json"

/-- The monthly artifact name `f"monthly_{year}_{month:02d}.html"` (the year
of any realistic date has four digits, so the unpadded `{year}` coincides
with the four-wide rendering). -/
def monthlyFilename (y m : Nat) : String :=
  "monthly_" ++ padNum 4 y ++ "_" ++ padNum 2 m ++ ".html"

/-- Python's `round(x, 2)` modelled on exact rationals (no claim in scope
depends on the float tie-breaking of CPython's banker rounding). -/
def round2 (x : ℚ) : ℚ := (round (x * 100) : ℤ) / 100

/-- `s.product.name`: the relationship join from a Sale to its Product's
name. The `product_id` foreign key is `nullable=False`, so in every state
the application can reach the lookup succeeds; the `""` default is dead. -/
def DB.productName (db : DB) (pid : Nat) : String :=
  ((db.products.find? (fun p => p.id == pid)).map Product.name).getD ""

/-- `lo <= t <= hi` on datetimes — the timestamp-range filter of the report
queries. -/
def inWindow (lo hi : Timestamp) (t : Timestamp) : Bool :=
  lo.le t && t.le hi

/-- `Sale.query.filter(Sale.timestamp >= start_of_day, Sale.timestamp <= end_of_day)`. -/
def salesInDay (db : DB) (d : Date) : List Sale :=
  db.sales.filter (fun s => inWindow (dayStart d) (dayEnd d) s.timestamp)

/-- The sales of the monthly report window. -/
def salesInMonth (db : DB) (y m : Nat) : List Sale :=
  db.sales.filter (fun s => inWindow (monthStart y m) (monthEnd y m) s.timestamp)

/-- `hourly_data = [0]*24; for s: hourly_data[s.timestamp.hour] += s.quantity`. -/
def hourlyChart (sales : List Sale) : List Int :=
  sales.foldl
    (fun acc s =>
      acc.set s.timestamp.hour (acc.getD s.timestamp.hour 0 + s.quantity))
    (List.replicate 24 0)

/-- One value of the `item_summary` dict. -/
structure ItemTotals where
  qty : Int
  profit : ℚ
  revenue : ℚ
deriving DecidableEq, Repr

/-- One entry of the `raw_sales` list of the daily report. -/
structure RawSale where
  time : String
  product : String
  qty : Int
  profit : ℚ
  revenue : ℚ
deriving DecidableEq, Repr

/-- The `item_summary` dict as an insertion-ordered association list:
`if name not in summary: summary[name] = zeros` then `+=` on its fields. -/
def addItem (m : List (String × ItemTotals)) (name : String) (q : Int)
    (p r : ℚ) : List (String × ItemTotals) :=
  let m := if m.any (fun e => e.1 == name) then m else m ++ [(name, ⟨0, 0, 0⟩)]
  m.map (fun e =>
    if e.1 == name then (e.1, ⟨e.2.qty + q, e.2.profit + p, e.2.revenue + r⟩)
    else e)

/-- Accumulator of the single loop over `sales_today` in
`generate_json_report`. -/
structure DayAccum where
  detail : List RawSale
  total_profit : ℚ
  total_revenue : ℚ
  items : List (String × ItemTotals)
deriving DecidableEq, Repr

/-- One iteration of the loop body of `generate_json_report`:
`rev = s.revenue if s.revenue is not None else 0`, then append the detail
row, accumulate the totals and the per-product summary. -/
def dayStep (db : DB) (acc : DayAccum) (s : Sale) : DayAccum :=
  let rev := s.revenue.getD 0
  { detail := acc.detail ++
      [{ time := timeString s.timestamp
         product := db.productName s.product_id
         qty := s.quantity
         profit := round2 s.profit
         revenue := round2 rev }]
    total_profit := acc.total_profit + s.profit
    total_revenue := acc.total_revenue + rev
    items := addItem acc.items (db.productName s.product_id) s.quantity s.profit rev }

/-- The `report_data` structure written by `generate_json_report`, together
with the artifact name the function writes it under and returns. -/
structure DailyReport where
  date : String
  total_profit : ℚ
  total_revenue : ℚ
  total_sales_count : Int
  hourly_chart : List Int
  item_summary : List (String × ItemTotals)
  raw_sales : List RawSale
  filename : String
deriving DecidableEq, Repr

/-- `generate_json_report(target_date)`. -/
def generate_json_report (db : DB) (target_date : Date) : DailyReport :=
  let sales_today := salesInDay db target_date
  let hourly_data := hourlyChart sales_today
  let acc := sales_today.foldl (dayStep db) ⟨[], 0, 0, []⟩
  { date := dateString target_date
    total_profit := round2 acc.total_profit
    total_revenue := round2 acc.total_revenue
    total_sales_count := hourly_data.sum
    hourly_chart := hourly_data
    item_summary := acc.items
    raw_sales := acc.detail
    filename := dailyFilename target_date }

/-- Accumulator of the loop of `generate_monthly_html_report`; the
`product_stats` dict maps a product name to its running (profit, qty). -/
structure MonthAccum where
  total_profit : ℚ
  total_revenue : ℚ
  total_qty : Int
  product_stats : List (String × ℚ × Int)
deriving DecidableEq, Repr

/-- `product_stats` accumulation of the monthly loop. -/
def addMonthItem (m : List (String × ℚ × Int)) (name : String) (p : ℚ)
    (q : Int) : List (String × ℚ × Int) :=
  let m := if m.any (fun e => e.1 == name) then m else m ++ [(name, 0, 0)]
  m.map (fun e => if e.1 == name then (e.1, e.2.1 + p, e.2.2 + q) else e)

/-- One iteration of the loop body of `generate_monthly_html_report`. -/
def monthStep (db : DB) (acc : MonthAccum) (s : Sale) : MonthAccum :=
  let rev := s.revenue.getD 0
  { total_profit := acc.total_profit + s.profit
    total_revenue := acc.total_revenue + rev
    total_qty := acc.total_qty + s.quantity
    product_stats := addMonthItem acc.product_stats
      (db.productName s.product_id) s.profit s.quantity }

/-- The data handed to the monthly HTML template, plus the artifact name.
The totals are kept exact here; the template call formats them as
thousands-grouped truncated integers, which is presentation only. -/
structure MonthlyReport where
  total_profit : ℚ
  total_revenue : ℚ
  total_qty : Int
  labels : List String
  profit_data : List ℚ
  qty_data : List Int
  filename : String
deriving DecidableEq, Repr

/-- `generate_monthly_html_report(year, month)`. -/
def generate_monthly_html_report (db : DB) (y m : Nat) : MonthlyReport :=
  let sales := salesInMonth db y m
  let acc := sales.foldl (monthStep db) ⟨0, 0, 0, []⟩
  { total_profit := acc.total_profit
    total_revenue := acc.total_revenue
    total_qty := acc.total_qty
    labels := acc.product_stats.map (fun e => e.1)
    profit_data := acc.product_stats.map (fun e => round2 e.2.1)
    qty_data := acc.product_stats.map (fun e => e.2.2)
    filename := monthlyFilename y m }

/-- Python's `str.endswith(suffix)` (compiled to a structurally recursive
suffix test on the character lists). -/
def strEndsWith (s suffix : String) : Bool :=
  suffix.data.isSuffixOf s.data

/-- Outcome of the `view_report` route. -/
inductive ViewResult
  | sendFile (content : String)
  | renderDetail (content : String)
  | notFound
deriving DecidableEq, Repr

/-- The `view_report` route over the records folder (an association list of
filename to raw content): an existing `.html` file is sent as a document, an
existing `.json` file is parsed and rendered, everything else — including an
existing file of any other extension — falls through to the 404. -/
def view_report (records : List (String × String)) (filename : String) :
    ViewResult :=
  match records.find? (fun e => e.1 == filename) with
  | some e =>
    if strEndsWith filename ".html" then .sendFile e.2
    else if strEndsWith filename ".json" then .renderDetail e.2
    else .notFound
  | none => .notFound

/-- Lexicographic `<=` on character lists, written as a structurally
recursive Boolean so that concrete listings evaluate inside the kernel; it
agrees with the library's string order (`strLe_iff`). -/
def charListLe : List Char → List Char → Bool
  | [], _ => true
  | _ :: _, [] => false
  | a :: as, b :: bs =>
    if a < b then true else if b < a then false else charListLe as bs

/-- Python's string comparison `a <= b` (code-point lexicographic). -/
def strLe (a b : String) : Bool := charListLe a.data b.data

/-- `sorted(os.listdir(RECORDS_FOLDER), reverse=True)` — the reports page's
artifact listing, descending in the string order. (Python's stable
sort-then-reverse coincides with the descending sort because equal strings
are indistinguishable.) -/
def list_artifacts (names : List String) : List String :=
  names.insertionSort (fun a b => strLe b a = true)

/-- Modelled from the spec: the earlier daily artifact naming scheme
`report_<YYYYMMDD>.<structured-ext>` that prior revisions of this program
used (src/app.py itself now writes `daily_...`); the artifact store may
still hold such names. -/
def reportFilename (d : Date) : String :=
  "report_" ++ padNum 4 d.year ++ padNum 2 d.month ++ padNum 2 d.day ++ ".json"

/-! Concrete fixture rows used by the witnesses and counterexamples. -/

def wProduct : Product :=
  { id := 1, name := "widget", image := "default.jpg", cost := 6, price := 10,
    stock := 5, category_id := 1, is_deleted := false }

def wEmptyProduct : Product :=
  { id := 2, name := "gadget", image := "default.jpg", cost := 2, price := 3,
    stock := 0, category_id := 1, is_deleted := false }

def wTime : Timestamp := ⟨2024, 3, 1, 14, 5, 0, 0⟩

def wDB : DB :=
  { products := [wProduct, wEmptyProduct], sales := [],
    next_product_id := 3, next_sale_id := 1 }

def wDeletedProduct : Product :=
  { id := 4, name := "relic", image := "default.jpg", cost := 1, price := 2,
    stock := 3, category_id := 1, is_deleted := true }

def wDB2 : DB :=
  { products := [wProduct, wDeletedProduct], sales := [],
    next_product_id := 5, next_sale_id := 1 }

def wSale : Sale :=
  { id := 1, product_id := 1, quantity := 3, profit := 12, revenue := some 30,
    timestamp := wTime }

def wDB3 : DB :=
  { products := [wProduct, wEmptyProduct], sales := [wSale],
    next_product_id := 3, next_sale_id := 2 }





/-- Replace a legacy NULL revenue by an explicit 0 — the coercion
`s.revenue if s.revenue is not None else 0` applied at the row itself. -/
def coerceSale (s : Sale) : Sale :=
  { s with revenue := some (s.revenue.getD 0) }

/-- The same database with every legacy NULL revenue made an explicit 0. -/
def coerceDB (db : DB) : DB :=
  { db with sales := db.sales.map coerceSale }

/-! ## Helper lemmas on first-match list surgery -/

theorem find_append_first {α} (pred : α → Bool) (l₁ l₂ : List α) (x : α)
    (h1 : ∀ q ∈ l₁, pred q = false) (hx : pred x = true) :
    (l₁ ++ x :: l₂).find? pred = some x := by
  induction l₁ with
  | nil => simp [List.find?, hx]
  | cons a l ih =>
    have ha := h1 a (by simp)
    simp only [List.cons_append, List.find?, ha]
    exact ih fun q hq => h1 q (by simp [hq])

theorem updateFirst_append {α} (pred : α → Bool) (f : α → α) (l₁ l₂ : List α)
    (x : α) (h1 : ∀ q ∈ l₁, pred q = false) (hx : pred x = true) :
    updateFirst pred f (l₁ ++ x :: l₂) = l₁ ++ f x :: l₂ := by
  induction l₁ with
  | nil => simp [updateFirst, hx]
  | cons a l ih =>
    have ha := h1 a (by simp)
    simp only [List.cons_append, updateFirst, ha, Bool.false_eq_true, if_false]
    exact congrArg (a :: ·) (ih fun q hq => h1 q (by simp [hq]))

theorem removeFirst_append {α} (pred : α → Bool) (l₁ l₂ : List α) (x : α)
    (h1 : ∀ q ∈ l₁, pred q = false) (hx : pred x = true) :
    removeFirst pred (l₁ ++ x :: l₂) = l₁ ++ l₂ := by
  induction l₁ with
  | nil => simp [removeFirst, hx]
  | cons a l ih =>
    have ha := h1 a (by simp)
    simp only [List.cons_append, removeFirst, ha, Bool.false_eq_true, if_false]
    exact congrArg (a :: ·) (ih fun q hq => h1 q (by simp [hq]))

/-- Shared description of a successful `sell`: with the product present and
the guard `stock <= 0 or qty > stock` failing, the route decrements that
product's stock by `qty` and appends exactly one `Sale` row computed from the
product's current price and cost. -/
theorem sell_ok_eq (db : DB) (pid : Nat) (qty : Int) (now : Timestamp)
    (l₁ l₂ : List Product) (p : Product)
    (hsplit : db.products = l₁ ++ p :: l₂)
    (hfirst : ∀ q ∈ l₁, q.id ≠ pid)
    (hid : p.id = pid)
    (hstock : 0 < p.stock) (hqty : qty ≤ p.stock) :
    sell db pid qty now =
      ({ db with
          products := l₁ ++ { p with stock := p.stock - qty } :: l₂
          sales := db.sales ++
            [{ id := db.next_sale_id, product_id := pid, quantity := qty,
               profit := (p.price - p.cost) * (qty : ℚ),
               revenue := some (p.price * (qty : ℚ)), timestamp := now }]
          next_sale_id := db.next_sale_id + 1 },
       SellResult.sold qty p.name) := by
  have hfirst' : ∀ q ∈ l₁, (fun q : Product => q.id == pid) q = false := by
    intro q hq
    simpa using hfirst q hq
  have hfind : db.products.find? (fun q => q.id == pid) = some p := by
    rw [hsplit]
    exact find_append_first _ _ _ _ hfirst' (by simp [hid])
  have hguard : ¬(p.stock ≤ 0 ∨ qty > p.stock) := by omega
  have hupd : updateFirst (fun q : Product => q.id == pid)
      (fun q => { q with stock := q.stock - qty }) db.products =
      l₁ ++ { p with stock := p.stock - qty } :: l₂ := by
    rw [hsplit]
    exact updateFirst_append _ _ _ _ _ hfirst' (by simp [hid])
  simp only [sell, hfind, hguard, if_false, hupd, hid]

/-- C2: with the product present, a requested quantity exceeding the stock —
or a zero stock — makes `sell` return the unchanged database together with
the out-of-stock rejection; no Sale row is written and no stock mutated. -/
theorem sell_rejects_out_of_stock (db : DB) (pid : Nat) (p : Product)
    (qty : Int) (now : Timestamp)
    (hfind : db.products.find? (fun q => q.id == pid) = some p)
    (h : qty > p.stock ∨ p.stock = 0) :
    sell db pid qty now = (db, SellResult.outOfStock) := by
  have hcond : p.stock ≤ 0 ∨ qty > p.stock := by
    rcases h with h | h
    · exact Or.inr h
    · exact Or.inl (by omega)
  simp only [sell, hfind, hcond, if_true]

theorem sell_rejects_out_of_stock_witness :
    wDB.products.find? (fun q => q.id == 2) = some wEmptyProduct ∧
    sell wDB 2 7 wTime = (wDB, SellResult.outOfStock) :=
  ⟨by decide,
   sell_rejects_out_of_stock wDB 2 wEmptyProduct 7 wTime (by decide)
     (Or.inr (by decide))⟩

/-- C3: a sell of `qty <= stock` against a positive stock decrements that
product's stock by exactly `qty` and appends exactly one Sale row whose
profit is `(price - cost) * qty` and whose revenue is `price * qty`, taken
from the product's price and cost at the time of the sale. -/
theorem sell_success_decrements_and_appends (db : DB) (pid : Nat) (qty : Int)
    (now : Timestamp) (l₁ l₂ : List Product) (p : Product)
    (hsplit : db.products = l₁ ++ p :: l₂)
    (hfirst : ∀ q ∈ l₁, q.id ≠ pid)
    (hid : p.id = pid)
    (hstock : 0 < p.stock) (hqty : qty ≤ p.stock) :
    sell db pid qty now =
      ({ db with
          products := l₁ ++ { p with stock := p.stock - qty } :: l₂
          sales := db.sales ++
            [{ id := db.next_sale_id, product_id := pid, quantity := qty,
               profit := (p.price - p.cost) * (qty : ℚ),
               revenue := some (p.price * (qty : ℚ)), timestamp := now }]
          next_sale_id := db.next_sale_id + 1 },
       SellResult.sold qty p.name) :=
  sell_ok_eq db pid qty now l₁ l₂ p hsplit hfirst hid hstock hqty

theorem sell_success_witness :
    sell wDB 1 2 wTime =
      ({ wDB with
          products := [] ++ { wProduct with stock := wProduct.stock - 2 } :: [wEmptyProduct]
          sales := wDB.sales ++
            [{ id := wDB.next_sale_id, product_id := 1, quantity := 2,
               profit := (wProduct.price - wProduct.cost) * ((2 : Int) : ℚ),
               revenue := some (wProduct.price * ((2 : Int) : ℚ)),
               timestamp := wTime }]
          next_sale_id := wDB.next_sale_id + 1 },
       SellResult.sold 2 wProduct.name) :=
  sell_success_decrements_and_appends wDB 1 2 wTime [] [wEmptyProduct]
    wProduct rfl (by simp) rfl (by decide) (by decide)

/-- C4 counterexample: `sell` never validates that the requested quantity is
positive. Against the fixture (stock 5, price 10, cost 6), selling `-2`
passes the guard, appends a Sale row with quantity `-2` (profit `-8`,
revenue `-20`) and raises the stock to 7 — refuting both "appends no Sale
row" and "changes no stock" for non-positive quantities. -/
theorem sale_positive_quantity_cex :
    (sell wDB 1 (-2) wTime).1.sales =
      [{ id := 1, product_id := 1, quantity := -2, profit := -8,
         revenue := some (-20), timestamp := wTime }] ∧
    ((sell wDB 1 (-2) wTime).1.products.find?
      (fun q => q.id == 1)).map Product.stock = some 7 := by
  have h := sell_ok_eq wDB 1 (-2) wTime [] [wEmptyProduct] wProduct rfl
    (by simp) rfl (by decide) (by decide)
  rw [h]
  refine ⟨?_, ?_⟩
  · simp only [wDB, wProduct, List.nil_append, List.cons.injEq, Sale.mk.injEq,
      Option.some.injEq, and_true, true_and]
    norm_num
  · simp [wDB, wProduct, wEmptyProduct, List.find?]

/-- C4 (amended): the sell route creates a Sale row whenever the product
exists, its stock is positive and `qty <= stock` — with no positivity check
on `qty`. In particular a sell with `qty <= 0` still appends a Sale row
carrying that non-positive quantity and moves the stock to `stock - qty`
(an increase for negative `qty`). -/
theorem sell_nonpositive_quantity_appends (db : DB) (pid : Nat) (qty : Int)
    (now : Timestamp) (l₁ l₂ : List Product) (p : Product)
    (hsplit : db.products = l₁ ++ p :: l₂)
    (hfirst : ∀ q ∈ l₁, q.id ≠ pid)
    (hid : p.id = pid)
    (hstock : 0 < p.stock) (hqty : qty ≤ 0) :
    (sell db pid qty now).1.sales = db.sales ++
      [{ id := db.next_sale_id, product_id := pid, quantity := qty,
         profit := (p.price - p.cost) * (qty : ℚ),
         revenue := some (p.price * (qty : ℚ)), timestamp := now }] ∧
    (sell db pid qty now).1.products =
      l₁ ++ { p with stock := p.stock - qty } :: l₂ := by
  have h := sell_ok_eq db pid qty now l₁ l₂ p hsplit hfirst hid hstock (by omega)
  rw [h]
  exact ⟨rfl, rfl⟩

theorem sell_nonpositive_quantity_appends_witness :
    (sell wDB 1 0 wTime).1.sales = wDB.sales ++
      [{ id := wDB.next_sale_id, product_id := 1, quantity := 0,
         profit := (wProduct.price - wProduct.cost) * ((0 : Int) : ℚ),
         revenue := some (wProduct.price * ((0 : Int) : ℚ)),
         timestamp := wTime }] ∧
    (sell wDB 1 0 wTime).1.products =
      [] ++ { wProduct with stock := wProduct.stock - 0 } :: [wEmptyProduct] :=
  sell_nonpositive_quantity_appends wDB 1 0 wTime [] [wEmptyProduct] wProduct
    rfl (by simp) rfl (by decide) (by decide)

/-- C5: re-adding a product by the name of an existing soft-deleted row
clears `is_deleted` and adds the incoming stock to the stored stock value
(additive restock, not replacement); id and name are untouched. -/
theorem restock_revives_and_accumulates (db : DB) (name : String) (s : Int)
    (cost_in price_in : Option ℚ) (cat_in : Option Nat)
    (file_in : Option String) (l₁ l₂ : List Product) (p : Product)
    (hsplit : db.products = l₁ ++ p :: l₂)
    (hfirst : ∀ q ∈ l₁, q.name ≠ name)
    (hname : p.name = name)
    (hdel : p.is_deleted = true) :
    ∃ p', (add_product db name (some s) cost_in price_in cat_in file_in).1.products
        = l₁ ++ p' :: l₂ ∧
      p'.id = p.id ∧ p'.name = p.name ∧ p'.is_deleted = false ∧
      p'.stock = p.stock + s := by
  have hfirst' : ∀ q ∈ l₁, (fun q : Product => q.name == name) q = false := by
    intro q hq
    simpa using hfirst q hq
  have hfind : db.products.find? (fun q => q.name == name) = some p := by
    rw [hsplit]
    exact find_append_first _ _ _ _ hfirst' (by simp [hname])
  simp only [add_product, hfind]
  rw [hsplit, updateFirst_append _ _ _ _ _ hfirst' (by simp [hname])]
  refine ⟨_, rfl, ?_, ?_, ?_, ?_⟩ <;>
    cases cost_in <;> cases price_in <;> cases cat_in <;>
    rcases file_in with - | f <;> simp [hdel] <;> split <;> simp

theorem restock_revives_and_accumulates_witness :
    ∃ p', (add_product wDB2 "relic" (some 7) none none none none).1.products
        = [wProduct] ++ p' :: [] ∧
      p'.id = wDeletedProduct.id ∧ p'.name = wDeletedProduct.name ∧
      p'.is_deleted = false ∧ p'.stock = wDeletedProduct.stock + 7 :=
  restock_revives_and_accumulates wDB2 "relic" 7 none none none none
    [wProduct] [] wDeletedProduct rfl (by decide) rfl rfl

/-- C6: `delete_product` hard-deletes a product having no Sale rows (the row
disappears) and soft-deletes one having at least one Sale row (flag set,
stock zeroed); the Sale table is identical in both outcomes. -/
theorem delete_product_spec (db : DB) (pid : Nat) (l₁ l₂ : List Product)
    (p : Product)
    (hsplit : db.products = l₁ ++ p :: l₂)
    (hfirst : ∀ q ∈ l₁, q.id ≠ pid)
    (hid : p.id = pid) :
    ((db.sales.filter (fun s => s.product_id == p.id)).length = 0 →
      delete_product db pid =
        ({ db with products := l₁ ++ l₂ }, DeleteResult.hardDeleted p.name)) ∧
    ((db.sales.filter (fun s => s.product_id == p.id)).length ≠ 0 →
      delete_product db pid =
        ({ db with
            products := l₁ ++ { p with is_deleted := true, stock := 0 } :: l₂ },
         DeleteResult.softDeleted p.name)) := by
  have hfirst' : ∀ q ∈ l₁, (fun q : Product => q.id == pid) q = false := by
    intro q hq
    simpa using hfirst q hq
  have hfind : db.products.find? (fun q => q.id == pid) = some p := by
    rw [hsplit]
    exact find_append_first _ _ _ _ hfirst' (by simp [hid])
  constructor
  · intro h
    simp only [delete_product, hfind, h, if_true]
    rw [hsplit, removeFirst_append _ _ _ _ hfirst' (by simp [hid])]
  · intro h
    simp only [delete_product, hfind, h, if_false]
    rw [hsplit, updateFirst_append _ _ _ _ _ hfirst' (by simp [hid])]

theorem delete_product_spec_witness :
    delete_product wDB3 1 =
      ({ wDB3 with
          products := [] ++ { wProduct with is_deleted := true, stock := 0 } :: [wEmptyProduct] },
       DeleteResult.softDeleted wProduct.name) ∧
    delete_product wDB3 2 =
      ({ wDB3 with products := [wProduct] ++ [] },
       DeleteResult.hardDeleted wEmptyProduct.name) :=
  ⟨(delete_product_spec wDB3 1 [] [wEmptyProduct] wProduct rfl (by simp) rfl).2
     (by decide),
   (delete_product_spec wDB3 2 [wProduct] [] wEmptyProduct rfl (by decide) rfl).1
     (by decide)⟩

/-! ## Daily aggregation: the hourly histogram sums the day's quantities -/

set_option maxHeartbeats 1600000 in
/-- Any timestamp between start-of-day and end-of-day of `d` has an hour
below 24 (so the histogram write `hourly_data[s.timestamp.hour]` is always
in bounds for the selected sales). -/
theorem hour_lt_of_between (t : Timestamp) (d : Date)
    (h1 : (dayStart d).le t = true) (h2 : t.le (dayEnd d) = true) :
    t.hour < 24 := by
  rcases t with ⟨y, mo, da, hh, mi, ss, uu⟩
  rcases d with ⟨dy, dm, dd⟩
  show hh < 24
  simp only [Timestamp.le, dayStart, dayEnd, ne_eq] at h1 h2
  split_ifs at h1 h2 <;> simp only [decide_eq_true_eq] at h1 h2 <;> omega

theorem mem_salesInDay_hour (db : DB) (d : Date) (s : Sale)
    (h : s ∈ salesInDay db d) : s.timestamp.hour < 24 := by
  simp only [salesInDay, List.mem_filter, inWindow, Bool.and_eq_true] at h
  exact hour_lt_of_between s.timestamp d h.2.1 h.2.2

theorem sum_set_getD (l : List Int) (i : Nat) (q : Int) (h : i < l.length) :
    (l.set i (l.getD i 0 + q)).sum = l.sum + q := by
  induction l generalizing i with
  | nil => simp at h
  | cons a l ih =>
    cases i with
    | zero =>
      simp only [List.getD_cons_zero, List.set_cons_zero, List.sum_cons]
      ring
    | succ i =>
      have hi : i < l.length := by simpa using h
      simp only [List.getD_cons_succ, List.set_cons_succ, List.sum_cons, ih i hi]
      ring

theorem hourlyFold_sum (sales : List Sale) (acc : List Int)
    (h : ∀ s ∈ sales, s.timestamp.hour < acc.length) :
    (sales.foldl
        (fun acc s =>
          acc.set s.timestamp.hour (acc.getD s.timestamp.hour 0 + s.quantity))
        acc).sum
      = acc.sum + (sales.map Sale.quantity).sum := by
  induction sales generalizing acc with
  | nil => simp
  | cons s rest ih =>
    have hs : s.timestamp.hour < acc.length := h s (by simp)
    simp only [List.foldl_cons, List.map_cons, List.sum_cons]
    rw [ih _ (fun t ht => by
      simpa using h t (by simp [ht]))]
    rw [sum_set_getD _ _ _ hs]
    ring

/-- C1 (amended): the daily report's `total_sales_count` equals the sum of
the 24 hourly buckets, which equals the sum of the *quantities* of the Sale
rows whose timestamp falls in the day window (not the number of such rows). -/
theorem daily_total_sales_count (db : DB) (d : Date) :
    (generate_json_report db d).total_sales_count =
      (generate_json_report db d).hourly_chart.sum ∧
    (generate_json_report db d).total_sales_count =
      ((salesInDay db d).map Sale.quantity).sum := by
  constructor
  · rfl
  · show (hourlyChart (salesInDay db d)).sum = _
    rw [hourlyChart, hourlyFold_sum]
    · simp
    · intro s hs
      simpa using mem_salesInDay_hour db d s hs

def wDate : Date := ⟨2024, 3, 1⟩

/-- C1 counterexample: for the ledger holding the single Sale(quantity 3,
price 10, cost 6) at 14:05:00 on 2024-03-01, the daily report has
`total_sales_count = 3` (and `hourly_chart[14] = 3`, `total_profit = 12`,
`total_revenue = 30`, matching the spec's own worked example) while the
number of Sale rows in the day window is 1 — so `total_sales_count` is the
sum of quantities, not the count of rows. -/
theorem daily_count_not_row_count_cex :
    (generate_json_report wDB3 wDate).total_sales_count = 3 ∧
    (salesInDay wDB3 wDate).length = 1 ∧
    (generate_json_report wDB3 wDate).hourly_chart.getD 14 0 = 3 ∧
    (generate_json_report wDB3 wDate).total_profit = 12 ∧
    (generate_json_report wDB3 wDate).total_revenue = 30 := by
  have h : salesInDay wDB3 wDate = [wSale] := by decide
  refine ⟨by decide, by decide, by decide, ?_, ?_⟩ <;>
  · show round2 _ = _
    rw [h]
    norm_num [dayStep, round2, wSale]

/-- C10: a date with no Sale rows in its window still yields a full daily
report artifact `daily_<YYYYMMDD>.json` with zero totals, a 24-slot zero
histogram and empty item summary and raw sales. -/
theorem daily_report_empty_day (db : DB) (d : Date)
    (h : ∀ s ∈ db.sales, inWindow (dayStart d) (dayEnd d) s.timestamp = false) :
    generate_json_report db d =
      { date := dateString d, total_profit := 0, total_revenue := 0,
        total_sales_count := 0, hourly_chart := List.replicate 24 0,
        item_summary := [], raw_sales := [],
        filename := "daily_" ++ padNum 4 d.year ++ padNum 2 d.month ++
          padNum 2 d.day ++ ".json" } := by
  have hempty : salesInDay db d = [] := by
    rw [salesInDay, List.filter_eq_nil_iff]
    intro s hs
    simp [h s hs]
  simp only [generate_json_report, hempty, hourlyChart, List.foldl_nil,
    dailyFilename]
  norm_num [round2]

def wEmptyDate : Date := ⟨2024, 3, 2⟩

theorem daily_report_empty_day_witness :
    (∀ s ∈ wDB3.sales,
      inWindow (dayStart wEmptyDate) (dayEnd wEmptyDate) s.timestamp = false) ∧
    generate_json_report wDB3 wEmptyDate =
      { date := dateString wEmptyDate, total_profit := 0, total_revenue := 0,
        total_sales_count := 0, hourly_chart := List.replicate 24 0,
        item_summary := [], raw_sales := [],
        filename := "daily_" ++ padNum 4 wEmptyDate.year ++
          padNum 2 wEmptyDate.month ++ padNum 2 wEmptyDate.day ++ ".json" } :=
  ⟨by decide, daily_report_empty_day wDB3 wEmptyDate (by decide)⟩

/-! ## Legacy NULL revenue -/

theorem salesInDay_coerce (db : DB) (d : Date) :
    salesInDay (coerceDB db) d = (salesInDay db d).map coerceSale := by
  rw [salesInDay, salesInDay, coerceDB, List.filter_map]
  rfl

theorem salesInMonth_coerce (db : DB) (y m : Nat) :
    salesInMonth (coerceDB db) y m = (salesInMonth db y m).map coerceSale := by
  rw [salesInMonth, salesInMonth, coerceDB, List.filter_map]
  rfl

theorem hourlyChart_coerce (l : List Sale) :
    hourlyChart (l.map coerceSale) = hourlyChart l := by
  rw [hourlyChart, hourlyChart, List.foldl_map]
  rfl

theorem dayFold_coerce (db : DB) (l : List Sale) (acc : DayAccum) :
    (l.map coerceSale).foldl (dayStep (coerceDB db)) acc =
      l.foldl (dayStep db) acc := by
  rw [List.foldl_map]
  rfl

theorem monthFold_coerce (db : DB) (l : List Sale) (acc : MonthAccum) :
    (l.map coerceSale).foldl (monthStep (coerceDB db)) acc =
      l.foldl (monthStep db) acc := by
  rw [List.foldl_map]
  rfl

theorem dayFold_total_profit (db : DB) (l : List Sale) (acc : DayAccum) :
    (l.foldl (dayStep db) acc).total_profit =
      acc.total_profit + (l.map Sale.profit).sum := by
  induction l generalizing acc with
  | nil => simp
  | cons s rest ih =>
    simp only [List.foldl_cons, List.map_cons, List.sum_cons, ih]
    show (dayStep db acc s).total_profit + _ = _
    simp only [dayStep]
    ring

theorem dayFold_total_revenue (db : DB) (l : List Sale) (acc : DayAccum) :
    (l.foldl (dayStep db) acc).total_revenue =
      acc.total_revenue + (l.map (fun s => s.revenue.getD 0)).sum := by
  induction l generalizing acc with
  | nil => simp
  | cons s rest ih =>
    simp only [List.foldl_cons, List.map_cons, List.sum_cons, ih]
    show (dayStep db acc s).total_revenue + _ = _
    simp only [dayStep]
    ring

theorem monthFold_totals (db : DB) (l : List Sale) (acc : MonthAccum) :
    (l.foldl (monthStep db) acc).total_profit =
      acc.total_profit + (l.map Sale.profit).sum ∧
    (l.foldl (monthStep db) acc).total_revenue =
      acc.total_revenue + (l.map (fun s => s.revenue.getD 0)).sum ∧
    (l.foldl (monthStep db) acc).total_qty =
      acc.total_qty + (l.map Sale.quantity).sum := by
  induction l generalizing acc with
  | nil => simp
  | cons s rest ih =>
    simp only [List.foldl_cons, List.map_cons, List.sum_cons]
    obtain ⟨ihp, ihr, ihq⟩ := ih (monthStep db acc s)
    refine ⟨?_, ?_, ?_⟩
    · rw [ihp]
      simp only [monthStep]
      ring
    · rw [ihr]
      simp only [monthStep]
      ring
    · rw [ihq]
      simp only [monthStep]
      ring

/-- C7: a NULL revenue on a Sale row is silently coerced to 0 by both the
daily and the monthly aggregation — replacing every NULL by an explicit 0
changes neither report — and such rows still contribute their quantity and
profit: the totals are plain sums over all rows of the window, with
`revenue.getD 0` for the revenue. -/
theorem legacy_null_revenue_handling (db : DB) (d : Date) (y m : Nat) :
    generate_json_report (coerceDB db) d = generate_json_report db d ∧
    generate_monthly_html_report (coerceDB db) y m =
      generate_monthly_html_report db y m ∧
    (generate_json_report db d).total_profit =
      round2 ((salesInDay db d).map Sale.profit).sum ∧
    (generate_json_report db d).total_revenue =
      round2 ((salesInDay db d).map (fun s => s.revenue.getD 0)).sum ∧
    (generate_monthly_html_report db y m).total_revenue =
      ((salesInMonth db y m).map (fun s => s.revenue.getD 0)).sum ∧
    (generate_monthly_html_report db y m).total_qty =
      ((salesInMonth db y m).map Sale.quantity).sum := by
  refine ⟨?_, ?_, ?_, ?_, ?_, ?_⟩
  · simp only [generate_json_report, salesInDay_coerce, hourlyChart_coerce,
      dayFold_coerce]
  · simp only [generate_monthly_html_report, salesInMonth_coerce,
      monthFold_coerce]
  · show round2 ((salesInDay db d).foldl (dayStep db) ⟨[], 0, 0, []⟩).total_profit = _
    rw [dayFold_total_profit]
    norm_num
  · show round2 ((salesInDay db d).foldl (dayStep db) ⟨[], 0, 0, []⟩).total_revenue = _
    rw [dayFold_total_revenue]
    norm_num
  · show ((salesInMonth db y m).foldl (monthStep db) ⟨0, 0, 0, []⟩).total_revenue = _
    rw [(monthFold_totals db _ _).2.1]
    norm_num
  · show ((salesInMonth db y m).foldl (monthStep db) ⟨0, 0, 0, []⟩).total_qty = _
    rw [(monthFold_totals db _ _).2.2]
    norm_num

/-- C8 counterexample: a file that exists in the records folder but has
neither the `.html` nor the `.json` extension is answered with the 404, so
"NotFound iff the name does not resolve to an existing file" fails. -/
theorem view_report_extension_cex :
    ((([("notes.txt", "memo")] : List (String × String)).find?
        (fun e => e.1 == "notes.txt")).isSome = true) ∧
    view_report [("notes.txt", "memo")] "notes.txt" = ViewResult.notFound := by
  constructor
  · rfl
  · rfl

/-- C8 (amended): `view_report` answers NotFound iff the name does not
resolve to a stored file or the stored file's extension is neither `.html`
nor `.json`; an existing `.html` file is sent back raw as a document and an
existing (non-`.html`) `.json` file is returned through the structured
renderer. -/
theorem view_report_spec (records : List (String × String)) (filename : String) :
    (view_report records filename = ViewResult.notFound ↔
      records.find? (fun e => e.1 == filename) = none ∨
      (strEndsWith filename ".html" = false ∧
       strEndsWith filename ".json" = false)) ∧
    (∀ c, records.find? (fun e => e.1 == filename) = some c →
      (strEndsWith filename ".html" = true →
        view_report records filename = ViewResult.sendFile c.2) ∧
      (strEndsWith filename ".html" = false →
        strEndsWith filename ".json" = true →
        view_report records filename = ViewResult.renderDetail c.2)) := by
  rcases hfind : records.find? (fun e => e.1 == filename) with - | c
  · constructor
    · simp [view_report, hfind]
    · intro c hc
      rw [hfind] at hc
      cases hc
  · constructor
    · simp only [view_report, hfind]
      split_ifs with h1 h2 <;> simp [*]
    · intro c2 hc
      rw [hfind] at hc
      cases hc
      constructor
      · intro hh
        simp [view_report, hfind, hh]
      · intro hh hj
        simp [view_report, hfind, hh, hj]

theorem view_report_spec_witness :
    view_report [("monthly_2024_01.html", "doc")] "monthly_2024_01.html" =
      ViewResult.sendFile "doc" :=
  ((view_report_spec [("monthly_2024_01.html", "doc")] "monthly_2024_01.html").2
    ("monthly_2024_01.html", "doc") rfl).1 rfl

/-! ## Artifact listing order -/

theorem digitChar_lt {a b : Nat} (hb : b ≤ 9) (h : a < b) :
    digitChar a < digitChar b := by
  interval_cases b <;> interval_cases a <;> decide

theorem padDigits_length (w n : Nat) : (padDigits w n).length = w := by
  induction w generalizing n with
  | zero => rfl
  | succ w ih => simp [padDigits, ih]

/-- Fixed-width zero-padded decimal strings compare lexicographically the
way the numbers compare. -/
theorem padDigits_lex (w : Nat) : ∀ a b : Nat, a < b → b < 10 ^ w →
    List.Lex (· < ·) (padDigits w a) (padDigits w b) := by
  induction w with
  | zero =>
    intro a b hab hb
    omega
  | succ w ih =>
    intro a b hab hb
    have h10 : 0 < 10 ^ w := Nat.pos_pow_of_pos w (by norm_num)
    have hbd : b / 10 ^ w ≤ 9 := by
      have hlt : b < 10 * 10 ^ w := by
        have hpow : (10 : Nat) ^ (w + 1) = 10 * 10 ^ w := by ring
        omega
      exact Nat.lt_succ_iff.mp ((Nat.div_lt_iff_lt_mul h10).mpr (by omega))
    have hle : a / 10 ^ w ≤ b / 10 ^ w := Nat.div_le_div_right (le_of_lt hab)
    rcases lt_or_eq_of_le hle with hlt | heq
    · exact List.Lex.rel (digitChar_lt hbd hlt)
    · rw [padDigits, padDigits, heq]
      apply List.Lex.cons
      have ha' := Nat.div_add_mod a (10 ^ w)
      have hb' := Nat.div_add_mod b (10 ^ w)
      have hmul : 10 ^ w * (a / 10 ^ w) = 10 ^ w * (b / 10 ^ w) := by rw [heq]
      exact ih (a % 10 ^ w) (b % 10 ^ w) (by omega) (Nat.mod_lt b h10)

/-- A strict lexicographic comparison between equal-length blocks decides
the comparison of any extensions of them. -/
theorem lex_append_right {r : Char → Char → Prop} (xs ys as bs : List Char)
    (h : List.Lex r xs ys) (hlen : xs.length = ys.length) :
    List.Lex r (xs ++ as) (ys ++ bs) := by
  induction h with
  | nil => simp at hlen
  | cons h ih => exact List.Lex.cons (ih (by simpa using hlen))
  | rel h => exact List.Lex.rel h

theorem lex_append_left {r : Char → Char → Prop} (p xs ys : List Char)
    (h : List.Lex r xs ys) : List.Lex r (p ++ xs) (p ++ ys) := by
  induction p with
  | nil => exact h
  | cons a p ih => exact List.Lex.cons ih

theorem charListLe_iff (as bs : List Char) :
    charListLe as bs = true ↔ ¬ List.Lex (· < ·) bs as := by
  induction as generalizing bs with
  | nil =>
    cases bs <;> simp [charListLe]
  | cons a as ih =>
    cases bs with
    | nil =>
      simp only [charListLe, Bool.false_eq_true, false_iff, not_not]
      exact List.Lex.nil
    | cons b bs =>
      simp only [charListLe]
      split_ifs with h1 h2
      · simp only [true_iff]
        intro hlex
        cases hlex with
        | cons h => exact absurd h1 (lt_irrefl _)
        | rel h => exact absurd (h1.trans h) (lt_irrefl _)
      · simp only [Bool.false_eq_true, false_iff, not_not]
        exact List.Lex.rel h2
      · have hab : a = b := le_antisymm (not_lt.mp h2) (not_lt.mp h1)
        subst hab
        rw [ih]
        constructor
        · intro hn hlex
          cases hlex with
          | cons h => exact hn h
          | rel h => exact absurd h (lt_irrefl _)
        · intro hn hlex
          exact hn (List.Lex.cons hlex)

/-- The executable comparator agrees with the string order. -/
theorem strLe_iff (a b : String) : strLe a b = true ↔ a ≤ b := by
  rw [strLe, charListLe_iff, ← not_lt]
  exact (not_congr String.lt_iff_toList_lt).symm

/-- A date-stamped artifact name with fixed-width zero-padded components is
strictly monotone in (year, month, day), whatever the scheme's leading
characters and extension are. -/
theorem dateName_lex (pre suf : List Char) (y1 m1 d1 y2 m2 d2 : Nat)
    (hy2 : y2 < 10000) (hm2 : m2 < 100) (hd2 : d2 < 100)
    (h : y1 < y2 ∨ (y1 = y2 ∧ (m1 < m2 ∨ (m1 = m2 ∧ d1 < d2)))) :
    List.Lex (· < ·)
      (pre ++ (padDigits 4 y1 ++ (padDigits 2 m1 ++ (padDigits 2 d1 ++ suf))))
      (pre ++ (padDigits 4 y2 ++ (padDigits 2 m2 ++ (padDigits 2 d2 ++ suf)))) := by
  apply lex_append_left
  rcases h with hy | ⟨rfl, hm | ⟨rfl, hd⟩⟩
  · exact lex_append_right _ _ _ _ (padDigits_lex 4 y1 y2 hy hy2)
      (by rw [padDigits_length, padDigits_length])
  · apply lex_append_left
    exact lex_append_right _ _ _ _ (padDigits_lex 2 m1 m2 hm hm2)
      (by rw [padDigits_length, padDigits_length])
  · apply lex_append_left
    apply lex_append_left
    exact lex_append_right _ _ _ _ (padDigits_lex 2 d1 d2 hd hd2)
      (by rw [padDigits_length, padDigits_length])

/-- C9 counterexample: reverse lexicographic is not most-recent-first across
the two naming schemes. The January 2024 monthly artifact is listed before
the daily artifact of 2024-03-02 (because `m` sorts above `d`), although
every instant of January 2024 — through the end of the month window —
precedes the start of that day. -/
theorem artifact_order_cex :
    list_artifacts [dailyFilename wEmptyDate, monthlyFilename 2024 1] =
      [monthlyFilename 2024 1, dailyFilename wEmptyDate] ∧
    (monthEnd 2024 1).le (dayStart wEmptyDate) = true := by
  decide

/-- C9 (amended): the reports page lists exactly the artifact names, sorted
in reverse lexicographic order; within one naming scheme (daily, legacy
report, or monthly — all with zero-padded date components) that order is
most-recent-first, because the rendered names are strictly monotone in the
date respectively in (year, month). Across schemes the leading characters
dominate, so the merged listing is not most-recent-first. -/
theorem artifact_listing_spec :
    (∀ names : List String,
      (list_artifacts names).Perm names ∧
      (list_artifacts names).Sorted (· ≥ ·)) ∧
    (∀ d e : Date, e.year < 10000 → e.month < 100 → e.day < 100 →
      (d.year < e.year ∨ (d.year = e.year ∧ (d.month < e.month ∨
        (d.month = e.month ∧ d.day < e.day)))) →
      dailyFilename d < dailyFilename e ∧
      reportFilename d < reportFilename e) ∧
    (∀ y1 m1 y2 m2 : Nat, y2 < 10000 → m2 < 100 →
      (y1 < y2 ∨ (y1 = y2 ∧ m1 < m2)) →
      monthlyFilename y1 m1 < monthlyFilename y2 m2) := by
  refine ⟨?_, ?_, ?_⟩
  · intro names
    haveI h1 : IsTotal String (fun a b => strLe b a = true) := ⟨fun a b => by
      rcases le_total b a with h | h
      · exact Or.inl ((strLe_iff _ _).mpr h)
      · exact Or.inr ((strLe_iff _ _).mpr h)⟩
    haveI h2 : IsTrans String (fun a b => strLe b a = true) := ⟨fun a b c hab hbc =>
      (strLe_iff _ _).mpr
        (le_trans ((strLe_iff _ _).mp hbc) ((strLe_iff _ _).mp hab))⟩
    constructor
    · exact List.perm_insertionSort _ _
    · exact (List.sorted_insertionSort _ _).imp fun h => (strLe_iff _ _).mp h
  · intro d e hy2 hm2 hd2 horder
    have hdd : ∀ x : Date, (dailyFilename x).data =
        "daily_".data ++ (padDigits 4 x.year ++ (padDigits 2 x.month ++
          (padDigits 2 x.day ++ ".json".data))) := by
      intro x
      simp [dailyFilename, padNum, String.data_append, List.append_assoc]
    have hrd : ∀ x : Date, (reportFilename x).data =
        "report_".data ++ (padDigits 4 x.year ++ (padDigits 2 x.month ++
          (padDigits 2 x.day ++ ".json".data))) := by
      intro x
      simp [reportFilename, padNum, String.data_append, List.append_assoc]
    constructor
    · apply String.lt_iff_toList_lt.mpr
      show List.Lex (· < ·) (dailyFilename d).data (dailyFilename e).data
      rw [hdd, hdd]
      exact dateName_lex _ _ _ _ _ _ _ _ hy2 hm2 hd2 horder
    · apply String.lt_iff_toList_lt.mpr
      show List.Lex (· < ·) (reportFilename d).data (reportFilename e).data
      rw [hrd, hrd]
      exact dateName_lex _ _ _ _ _ _ _ _ hy2 hm2 hd2 horder
  · intro y1 m1 y2 m2 hy2 hm2 horder
    have hmd : ∀ y m : Nat, (monthlyFilename y m).data =
        "monthly_".data ++ (padDigits 4 y ++ ("_".data ++
          (padDigits 2 m ++ ".html".data))) := by
      intro y m
      simp [monthlyFilename, padNum, String.data_append, List.append_assoc]
    apply String.lt_iff_toList_lt.mpr
    show List.Lex (· < ·) (monthlyFilename y1 m1).data (monthlyFilename y2 m2).data
    rw [hmd, hmd]
    apply lex_append_left
    rcases horder with hy | ⟨rfl, hm⟩
    · exact lex_append_right _ _ _ _ (padDigits_lex 4 y1 y2 hy hy2)
        (by rw [padDigits_length, padDigits_length])
    · apply lex_append_left
      apply lex_append_left
      exact lex_append_right _ _ _ _ (padDigits_lex 2 m1 m2 hm hm2)
        (by rw [padDigits_length, padDigits_length])

theorem artifact_listing_spec_witness :
    (list_artifacts [dailyFilename wDate, monthlyFilename 2024 1]).Sorted
      (fun a b : String => a ≥ b) ∧
    dailyFilename wDate < dailyFilename wEmptyDate ∧
    reportFilename wDate < reportFilename wEmptyDate ∧
    monthlyFilename 2024 1 < monthlyFilename 2024 2 :=
  ⟨(artifact_listing_spec.1 [dailyFilename wDate, monthlyFilename 2024 1]).2,
   (artifact_listing_spec.2.1 wDate wEmptyDate (by decide) (by decide)
      (by decide) (Or.inr ⟨rfl, Or.inr ⟨rfl, by decide⟩⟩)).1,
   (artifact_listing_spec.2.1 wDate wEmptyDate (by decide) (by decide)
      (by decide) (Or.inr ⟨rfl, Or.inr ⟨rfl, by decide⟩⟩)).2,
   artifact_listing_spec.2.2 2024 1 2024 2 (by decide) (by decide)
     (Or.inr ⟨rfl, by decide⟩)⟩
